import Mathlib

/-!
Shallow embedding of `euchre/model.py`: suits and colors, the rank/suit
symbol tables, cards, the deck catalog, decks and hands, together with
theorems settling the specification claims about them.
-/

set_option maxHeartbeats 1000000

/-- `Color(enum.IntEnum)` from the source: `BLACK = 1`, `RED = 2`. -/
inductive Color where
  | BLACK
  | RED
deriving DecidableEq

/-- The integer code of a color (`enum.IntEnum` value). -/
def Color.code : Color → Nat
  | .BLACK => 1
  | .RED => 2

/-- `Suit(enum.IntEnum)` from the source: `CLUBS = 1`, `DIAMONDS = 2`,
`HEARTS = 3`, `SPADES = 4`. -/
inductive Suit where
  | CLUBS
  | DIAMONDS
  | HEARTS
  | SPADES
deriving DecidableEq

/-- The integer code of a suit (`enum.IntEnum` value). -/
def Suit.code : Suit → Nat
  | .CLUBS => 1
  | .DIAMONDS => 2
  | .HEARTS => 3
  | .SPADES => 4

/-- `Suit.color` from the source:
`return Color.BLACK if self % 4 <= 1 else Color.RED`. -/
def Suit.color (s : Suit) : Color :=
  if s.code % 4 ≤ 1 then Color.BLACK else Color.RED

/-- `RANKS_STR = '9TJQKA'` from the source. -/
def RANKS_STR : List Char := "9TJQKA".data

/-- `RANKS = dict(zip(RANKS_STR, range(9, 15)))` from the source,
as an association list with the same keys in the same order. -/
def RANKS : List (Char × Nat) := RANKS_STR.zip (List.range' 9 6)

/-- `SUITS_STR = 'CDHS'` from the source. -/
def SUITS_STR : List Char := "CDHS".data

/-- The members of `Suit` in declaration order, as Python iterates an enum. -/
def SUIT_MEMBERS : List Suit := [Suit.CLUBS, Suit.DIAMONDS, Suit.HEARTS, Suit.SPADES]

/-- `SUITS = dict(zip(SUITS_STR, Suit))` from the source,
as an association list with the same keys in the same order. -/
def SUITS : List (Char × Suit) := SUITS_STR.zip SUIT_MEMBERS

/-- The failure conditions the module raises: `KeyError` on an unknown
rank/suit token, and `ValueError` (with the observed length) when a
pair-like input to `Card.from_pair` is not exactly two items. -/
inductive ModelError where
  | invalidToken (tok : Char)
  | invalidArity (len : Nat)
deriving DecidableEq

/-- A `Card` as constructed by `Card.__init__`: it stores the looked-up
numeric rank (`self._rank`), the looked-up suit (`self._suit`) and the
two-character textual form (`self._str`). Python strings are embedded as
`List Char`. -/
structure Card where
  rank : Nat
  suit : Suit
  str : List Char
deriving DecidableEq

/-- `Card.__init__(self, rank, suit)` from the source: looks the rank token
up in `RANKS` (a missing key raises `KeyError`), then the suit token in
`SUITS`, then formats `'{}{}'.format(rank, suit)`. -/
def Card.construct (r s : Char) : Except ModelError Card :=
  match RANKS.lookup r with
  | none => .error (.invalidToken r)
  | some rank =>
    match SUITS.lookup s with
    | none => .error (.invalidToken s)
    | some suit => .ok { rank := rank, suit := suit, str := [r, s] }

/-- `Card.from_pair(cls, card)` from the source: raises `ValueError` stating
the length unless the iterable has exactly two items, otherwise delegates to
`cls(*card)`, i.e. `Card.construct` on the two items in order. -/
def Card.from_pair : List Char → Except ModelError Card
  | [r, s] => Card.construct r s
  | card => .error (.invalidArity card.length)

/-- The argument stream `itertools.product(RANKS_STR, SUITS_STR)` from the
source: rank tokens as the outer loop, suit tokens as the inner loop. -/
def DECK_PAIRS : List (List Char) :=
  RANKS_STR.flatMap (fun r => SUITS_STR.map (fun s => [r, s]))

/-- The semantics of a Python list comprehension applying `Card.from_pair`
to each element left to right: the first raised error aborts the whole
comprehension with that error, otherwise the results are collected in
order. -/
def cardsFromPairs : List (List Char) → Except ModelError (List Card)
  | [] => .ok []
  | t :: ts =>
    match Card.from_pair t with
    | .error e => .error e
    | .ok c =>
      match cardsFromPairs ts with
      | .error e => .error e
      | .ok cs => .ok (c :: cs)

/-- `DECK_CARDS = [Card.from_pair(card) for card in itertools.product(RANKS_STR, SUITS_STR)]`
from the source. (The comprehension raises no error; the fallback `[]` is
never taken.) -/
def DECK_CARDS : List Card := (cardsFromPairs DECK_PAIRS).toOption.getD []

/-- A `Deck` wraps an ordered card sequence (`self._cards`). -/
structure Deck where
  cards : List Card
deriving DecidableEq

/-- `Deck.__init__(self, cards)` from the source: wraps the given sequence
verbatim. -/
def Deck.from_cards (cards : List Card) : Deck := ⟨cards⟩

/-- `str.join` from Python: `sep.join(parts)` concatenates the parts with
the separator between consecutive parts. -/
def strJoin (sep : List Char) : List (List Char) → List Char
  | [] => []
  | [x] => x
  | x :: xs => x ++ sep ++ strJoin sep xs

/-- `Deck.__str__` from the source: `', '.join(str(card) for card in self.cards)`. -/
def Deck.toStr (d : Deck) : List Char := strJoin ", ".data (d.cards.map Card.str)

/-- Applying a position permutation `σ` to a list: the model of an in-place
`random.shuffle` outcome. -/
def applyPerm (l : List Card) (σ : Equiv.Perm (Fin l.length)) : List Card :=
  List.ofFn (fun i => l.get (σ i))

/-- `Deck.new(cls)` from the source: `cards = DECK_CARDS.copy()`,
`random.shuffle(cards)`, `return cls(cards)`. The shuffle outcome is
modelled by an arbitrary permutation `σ` of positions, applied to the
copy; the second component is the module-level catalog as observable
after the call (the shuffle touched only the copy). -/
def Deck.new (σ : Equiv.Perm (Fin DECK_CARDS.length)) : Deck × List Card :=
  (⟨applyPerm DECK_CARDS σ⟩, DECK_CARDS)

/-- A `Hand` wraps an ordered card sequence (`self.cards`). -/
structure Hand where
  cards : List Card
deriving DecidableEq

/-- `Hand.from_str(cls, cards)` from the source:
`cards = [Card.from_pair(card) for card in cards]; return cls(cards)`. -/
def Hand.from_str (cards : List (List Char)) : Except ModelError Hand :=
  match cardsFromPairs cards with
  | .error e => .error e
  | .ok cs => .ok ⟨cs⟩

/-- `Hand.__str__` from the source: `', '.join(str(card) for card in self.cards)`. -/
def Hand.toStr (h : Hand) : List Char := strJoin ", ".data (h.cards.map Card.str)

/-- The color formula exactly as the spec words it: "the result equals
BLACK if (the suit's integer code mod 4) <= 1 and RED otherwise". -/
def color_spec (s : Suit) : Color :=
  if s.code % 4 ≤ 1 then Color.BLACK else Color.RED

/-- C1 counterexample: the claimed table is false on the code — the code
gives `color DIAMONDS = RED` (code 2, `2 % 4 = 2 > 1`) and
`color SPADES = BLACK` (code 4, `4 % 4 = 0 ≤ 1`). -/
theorem C1_counterexample :
    ¬ (Suit.color Suit.CLUBS = Color.BLACK ∧ Suit.color Suit.DIAMONDS = Color.BLACK ∧
       Suit.color Suit.HEARTS = Color.RED ∧ Suit.color Suit.SPADES = Color.RED) := by
  decide

/-- C1 (amended): the suit-to-color function maps `color_of(CLUBS) = BLACK`,
`color_of(DIAMONDS) = RED`, `color_of(HEARTS) = RED`,
`color_of(SPADES) = BLACK` (codes 1 and 4 black, codes 2 and 3 red), and is
total over the closed four-suit enumeration. -/
theorem C1_suit_colors :
    Suit.color Suit.CLUBS = Color.BLACK ∧ Suit.color Suit.DIAMONDS = Color.RED ∧
    Suit.color Suit.HEARTS = Color.RED ∧ Suit.color Suit.SPADES = Color.BLACK ∧
    ∀ s : Suit, s.color = Color.BLACK ∨ s.color = Color.RED := by
  refine ⟨rfl, rfl, rfl, rfl, ?_⟩
  intro s
  cases s <;> simp [Suit.color, Suit.code]

/-- C2: for every suit, the color computed by the code equals the spec's
modulo formula: BLACK if (code mod 4) <= 1 and RED otherwise. -/
theorem C2_color_formula : ∀ s : Suit, Suit.color s = color_spec s := by
  intro s
  cases s <;> rfl

/-- C3: the deck catalog has exactly 24 cards, pairwise distinct by
(rank, suit), in rank-major (`9TJQKA` outer) suit-minor (`CDHS` inner)
enumeration order. -/
theorem C3_deck_catalog :
    DECK_CARDS.length = 24 ∧
    (DECK_CARDS.map (fun c => (c.rank, c.suit))).Nodup ∧
    DECK_CARDS.map (fun c => (c.rank, c.suit)) =
      [(9, Suit.CLUBS), (9, Suit.DIAMONDS), (9, Suit.HEARTS), (9, Suit.SPADES),
       (10, Suit.CLUBS), (10, Suit.DIAMONDS), (10, Suit.HEARTS), (10, Suit.SPADES),
       (11, Suit.CLUBS), (11, Suit.DIAMONDS), (11, Suit.HEARTS), (11, Suit.SPADES),
       (12, Suit.CLUBS), (12, Suit.DIAMONDS), (12, Suit.HEARTS), (12, Suit.SPADES),
       (13, Suit.CLUBS), (13, Suit.DIAMONDS), (13, Suit.HEARTS), (13, Suit.SPADES),
       (14, Suit.CLUBS), (14, Suit.DIAMONDS), (14, Suit.HEARTS), (14, Suit.SPADES)] ∧
    DECK_CARDS.map Card.str =
      ["9C".data, "9D".data, "9H".data, "9S".data,
       "TC".data, "TD".data, "TH".data, "TS".data,
       "JC".data, "JD".data, "JH".data, "JS".data,
       "QC".data, "QD".data, "QH".data, "QS".data,
       "KC".data, "KD".data, "KH".data, "KS".data,
       "AC".data, "AD".data, "AH".data, "AS".data] := by
  refine ⟨rfl, by decide, by decide, by decide⟩

/-- C5: for every rank token at position i of `9TJQKA` and suit token at
position j of `CDHS`, construction succeeds with numeric rank `9 + i`,
the j-th suit in order CLUBS, DIAMONDS, HEARTS, SPADES, and textual form
equal to the two supplied tokens concatenated. -/
theorem C5_construct_tokens :
    ∀ (i : Fin 6) (j : Fin 4),
      (Card.construct (RANKS_STR.getD i.val 'x') (SUITS_STR.getD j.val 'x')).toOption =
        some { rank := 9 + i.val,
               suit := SUIT_MEMBERS.getD j.val Suit.CLUBS,
               str := [RANKS_STR.getD i.val 'x', SUITS_STR.getD j.val 'x'] } := by
  decide

/-- Applying a position permutation yields a permutation of the list. -/
theorem applyPerm_perm (l : List Card) (σ : Equiv.Perm (Fin l.length)) :
    (applyPerm l σ).Perm l := by
  have h := Equiv.Perm.ofFn_comp_perm σ l.get
  rw [List.ofFn_get] at h
  exact h

/-- C4: for every outcome of the random shuffle, the new deck's cards are a
permutation of the catalog, the catalog observable after the call is
unchanged, and the deck still holds 24 pairwise-distinct cards — so any two
successive calls each yield all 24 distinct cards. -/
theorem C4_deck_new (σ : Equiv.Perm (Fin DECK_CARDS.length)) :
    (Deck.new σ).2 = DECK_CARDS ∧
    (Deck.new σ).1.cards.Perm DECK_CARDS ∧
    (Deck.new σ).1.cards.length = 24 ∧
    ((Deck.new σ).1.cards.map (fun c => (c.rank, c.suit))).Nodup := by
  have hperm : (Deck.new σ).1.cards.Perm DECK_CARDS := applyPerm_perm DECK_CARDS σ
  refine ⟨rfl, hperm, ?_, ?_⟩
  · rw [hperm.length_eq]
    rfl
  · have hmap := hperm.map (fun c => (c.rank, c.suit))
    rw [hmap.nodup_iff]
    decide

/-- C6: card construction fails, always with an invalid-token condition,
exactly when a token is absent from its symbol table; `('9','C')` succeeds
while `('9','Z')` and `('X','C')` fail naming the offending token. -/
theorem C6_invalid_token :
    (∀ r s : Char,
       ((Card.construct r s).toOption.isSome ↔
         ((RANKS.lookup r).isSome ∧ (SUITS.lookup s).isSome)) ∧
       (∀ e, Card.construct r s = .error e → ∃ t, e = ModelError.invalidToken t)) ∧
    (Card.construct '9' 'C').toOption.isSome = true ∧
    Card.construct '9' 'Z' = .error (.invalidToken 'Z') ∧
    Card.construct 'X' 'C' = .error (.invalidToken 'X') := by
  refine ⟨?_, by decide, by rfl, by rfl⟩
  intro r s
  constructor
  · unfold Card.construct
    rcases hr : RANKS.lookup r with _ | rank <;>
      rcases hs : SUITS.lookup s with _ | suit <;> simp [Except.toOption]
  · intro e he
    unfold Card.construct at he
    rcases hr : RANKS.lookup r with _ | rank <;> rw [hr] at he
    · simp only [Except.error.injEq] at he
      exact ⟨r, he.symm⟩
    · rcases hs : SUITS.lookup s with _ | suit <;> rw [hs] at he
      · simp only [Except.error.injEq] at he
        exact ⟨s, he.symm⟩
      · simp at he

/-- C6 witness: the theorem applied at `('9','Z')`, whose construction
fails with the invalid-token condition naming `'Z'`. -/
theorem C6_witness : ∃ t, ModelError.invalidToken 'Z' = ModelError.invalidToken t :=
  (C6_invalid_token.1 '9' 'Z').2 (ModelError.invalidToken 'Z') (by rfl)

/-- C7: `from_pair` fails with invalid-arity stating the observed length
whenever the input is not exactly two items, and on two items delegates to
`construct`; `"AHC"` fails reporting length 3 and `"AH"` equals
`construct 'A' 'H'`, a success. -/
theorem C7_from_pair :
    (∀ card : List Char, card.length ≠ 2 →
        Card.from_pair card = .error (.invalidArity card.length)) ∧
    (∀ r s : Char, Card.from_pair [r, s] = Card.construct r s) ∧
    Card.from_pair "AHC".data = .error (.invalidArity 3) ∧
    Card.from_pair "AH".data = Card.construct 'A' 'H' ∧
    (Card.from_pair "AH".data).toOption.isSome = true := by
  refine ⟨?_, fun r s => rfl, by rfl, by rfl, by decide⟩
  intro card h
  match card with
  | [] => rfl
  | [a] => rfl
  | [a, b] => exact absurd rfl h
  | a :: b :: c :: t => rfl

/-- C7 witness: the theorem applied at the length-3 input `"AHC"`. -/
theorem C7_witness :
    Card.from_pair "AHC".data = .error (.invalidArity ("AHC".data.length)) :=
  C7_from_pair.1 "AHC".data (by decide)

/-- The comprehension aborts with the error of the first failing token. -/
theorem cardsFromPairs_fail_fast (pre : List (List Char)) (t : List Char)
    (rest : List (List Char)) (e : ModelError)
    (hpre : ∀ p ∈ pre, (Card.from_pair p).toOption.isSome)
    (ht : Card.from_pair t = .error e) :
    cardsFromPairs (pre ++ t :: rest) = .error e := by
  induction pre with
  | nil => simp [cardsFromPairs, ht]
  | cons p ps ih =>
    have hp := hpre p (List.mem_cons_self p ps)
    obtain ⟨c, hc⟩ : ∃ c, Card.from_pair p = .ok c := by
      rcases h : Card.from_pair p with e' | c
      · rw [h] at hp
        simp [Except.toOption] at hp
      · exact ⟨c, rfl⟩
    have hrest := ih (fun q hq => hpre q (List.mem_cons_of_mem p hq))
    simp [cardsFromPairs, hc, hrest]

/-- On success the comprehension keeps the constructed cards in input
order: position by position, each token's construction yields the card. -/
theorem cardsFromPairs_ok_map (toks : List (List Char)) (cs : List Card)
    (h : cardsFromPairs toks = .ok cs) :
    toks.map (fun t => (Card.from_pair t).toOption) = cs.map some := by
  induction toks generalizing cs with
  | nil =>
    unfold cardsFromPairs at h
    cases h
    rfl
  | cons t ts ih =>
    unfold cardsFromPairs at h
    rcases hx : Card.from_pair t with e | c <;> rw [hx] at h
    · simp at h
    · rcases hy : cardsFromPairs ts with e | cs' <;> rw [hy] at h
      · simp at h
      · simp only [Except.ok.injEq] at h
        subst h
        simp only [List.map_cons, hx, Except.toOption]
        exact congrArg _ (ih cs' hy)

/-- C8: hand construction from tokens fails fast with the error of the
first invalid token and returns no partial hand; on success the hand holds
the cards in input order, and the worked example renders as
`"9C, TD, JH, QS, KC"`. -/
theorem C8_hand_from_tokens :
    (∀ (pre : List (List Char)) (t : List Char) (rest : List (List Char)) (e : ModelError),
       (∀ p ∈ pre, (Card.from_pair p).toOption.isSome) →
       Card.from_pair t = .error e →
       Hand.from_str (pre ++ t :: rest) = .error e) ∧
    (∀ (toks : List (List Char)) (h : Hand), Hand.from_str toks = .ok h →
       toks.map (fun t => (Card.from_pair t).toOption) = h.cards.map some) ∧
    (Hand.from_str ["9C".data, "TD".data, "JH".data, "QS".data, "KC".data]).toOption.map
        Hand.toStr = some "9C, TD, JH, QS, KC".data := by
  refine ⟨?_, ?_, by decide⟩
  · intro pre t rest e hpre ht
    have hcp := cardsFromPairs_fail_fast pre t rest e hpre ht
    simp [Hand.from_str, hcp]
  · intro toks h hh
    unfold Hand.from_str at hh
    rcases hx : cardsFromPairs toks with e | cs <;> rw [hx] at hh
    · simp at hh
    · simp only [Except.ok.injEq] at hh
      subst hh
      exact cardsFromPairs_ok_map toks cs hx

/-- C8 witness: the theorem applied to `["9C", "9Z"]`, failing with the
invalid-token condition of the second token. -/
theorem C8_witness :
    Hand.from_str ["9C".data, "9Z".data] = .error (.invalidToken 'Z') :=
  C8_hand_from_tokens.1 ["9C".data] "9Z".data [] (.invalidToken 'Z') (by decide) (by rfl)

/-- C9: wrapping a card sequence in a deck keeps it verbatim, and the
textual form is the comma-space join of the cards' tokens in sequence
order, characterised by its empty, singleton and cons equations. -/
theorem C9_deck_from_cards :
    (∀ cs : List Card, (Deck.from_cards cs).cards = cs) ∧
    Deck.toStr (Deck.from_cards []) = [] ∧
    (∀ c : Card, Deck.toStr (Deck.from_cards [c]) = c.str) ∧
    (∀ (c : Card) (cs : List Card), cs ≠ [] →
       Deck.toStr (Deck.from_cards (c :: cs)) =
         c.str ++ ", ".data ++ Deck.toStr (Deck.from_cards cs)) := by
  refine ⟨fun cs => rfl, rfl, fun c => rfl, ?_⟩
  intro c cs h
  match cs with
  | [] => exact absurd rfl h
  | d :: ds => rfl

/-- C9 witness: the theorem applied at a concrete two-card deck. -/
theorem C9_witness :
    Deck.toStr (Deck.from_cards
      [{ rank := 9, suit := Suit.CLUBS, str := "9C".data },
       { rank := 10, suit := Suit.DIAMONDS, str := "TD".data }]) =
      "9C".data ++ ", ".data ++
        Deck.toStr (Deck.from_cards [{ rank := 10, suit := Suit.DIAMONDS, str := "TD".data }]) :=
  C9_deck_from_cards.2.2.2 _ _ (by decide)

/-- C10: the collection constructors accept the empty sequence: an empty
token list yields a hand with zero cards rendering as the empty string,
and an empty card sequence yields a deck rendering as the empty string. -/
theorem C10_empty_inputs :
    Hand.from_str [] = .ok ⟨[]⟩ ∧
    (Hand.mk []).cards.length = 0 ∧ (Hand.mk []).toStr = [] ∧
    (Deck.from_cards []).cards.length = 0 ∧ (Deck.from_cards []).toStr = [] :=
  ⟨rfl, rfl, rfl, rfl, rfl⟩
